import Mathlib

/-!
# ShopStream live-shopping app — verification of the stream lifecycle logic

Shallow embedding of the server-side state and the request handlers of the
ShopStream Shopify app:

* the durable `Stream` record (Prisma model, see the SQL migrations),
* the append-only `StreamEvent` audit log,
* the Redis liveness cache (key `stream:{id}:state`),
* the Mux webhook handler (`app/routes/webhooks.mux.tsx`, the stricter
  variant in which `video.live_stream.active` does not set `status`),
* the merchant pre-flight "start streaming" action
  (`app/routes/app.streams.new.preflight.tsx`),
* the merchant "end stream" action (`app/routes/app.streams.$id.live.tsx`),
* the product-lineup actions (`app/routes/app.streams.$id.tsx`),
* the manual clip-creation endpoint (`app/routes/api.clips.create.tsx`).

Timestamps are modelled as `Nat` (milliseconds since epoch); `new Date()`
becomes an explicit `now` parameter.  Database tables are lists of rows;
`prisma.*.update({where: {id}})` becomes a map that rewrites the matching
row.  External calls (the Mux SDK) are parameters of the handlers.
-/

namespace ShopStream

/-- Prisma enum `StreamStatus`. -/
inductive StreamStatus
  | DRAFT
  | SCHEDULED
  | LIVE
  | ENDED
deriving DecidableEq, Repr

/-- Prisma enum `StreamEventType` (the members used by the handlers). -/
inductive StreamEventType
  | STREAM_STARTED
  | STREAM_ENDED
  | PRODUCT_FEATURED
deriving DecidableEq, Repr

/-- The `Stream` row: lifecycle fields plus the Mux linkage columns added by
the later migrations (`muxAssetId`, `liveStartedAt`, ...). -/
structure Stream where
  id : String
  shop : String
  title : String
  status : StreamStatus
  scheduledAt : Option Nat
  startedAt : Option Nat
  liveStartedAt : Option Nat
  endedAt : Option Nat
  muxStreamId : Option String
  muxPlaybackId : Option String
  muxAssetId : Option String
  muxAssetPlaybackId : Option String
  muxAssetCreatedAt : Option Nat
deriving DecidableEq, Repr

/-- JSON payload of a `StreamEvent` as built by the webhook handler and the
merchant actions (`{}` is all-`none`). -/
structure EventPayload where
  muxStreamId : Option String := none
  timestamp : Option Nat := none
  playbackId : Option String := none
deriving DecidableEq, Repr

/-- A `StreamEvent` row (append-only audit log). -/
structure StreamEvent where
  streamId : String
  type : StreamEventType
  payload : EventPayload
deriving DecidableEq, Repr

/-- A `StreamClip` row as created by `api.clips.create`. -/
structure StreamClip where
  streamId : String
  productId : Option String
  muxClipId : String
  muxClipPlaybackId : Option String
  startTime : Int
  endTime : Int
  title : String
  description : Option String
deriving DecidableEq, Repr

/-- Server-side state touched by the handlers under verification: the
`Stream`, `StreamEvent` and `StreamClip` tables plus the Redis liveness
cache.  The cache is keyed by stream id (the code uses the literal key
`stream:{streamId}:state`, one entry per stream id). -/
structure AppState where
  streams : List Stream
  events : List StreamEvent
  clips : List StreamClip
  cache : List (String × String)
deriving DecidableEq, Repr

/-- `redis.set key value`: unconditional last-write-wins upsert. -/
def cacheSet (c : List (String × String)) (k v : String) : List (String × String) :=
  if c.any (fun e => e.1 == k) then
    c.map (fun e => if e.1 == k then (k, v) else e)
  else
    c ++ [(k, v)]

/-- `redis.get key`. -/
def cacheGet (c : List (String × String)) (k : String) : Option String :=
  (c.find? (fun e => e.1 == k)).map (·.2)

/-- `db.stream.findFirst({where: {muxStreamId}})`. -/
def findByMuxStreamId (streams : List Stream) (m : String) : Option Stream :=
  streams.find? (fun s => s.muxStreamId == some m)

/-- `db.stream.findFirst({where: {id, shop}})` — tenant-scoped lookup. -/
def findByIdShop (streams : List Stream) (sid shop : String) : Option Stream :=
  streams.find? (fun s => s.id == sid && s.shop == shop)

/-- `db.stream.update({where: {id}, data})`: rewrite the matching row. -/
def dbUpdateStream (streams : List Stream) (sid : String) (f : Stream → Stream) :
    List Stream :=
  streams.map (fun s => if s.id == sid then f s else s)

/-- The webhook event envelope `{type, data}` after `mux.webhooks.unwrap`:
the three handled event kinds with the `data` fields the handler reads, and
a catch-all for every other `type`. -/
inductive MuxEvent
  | liveStreamActive (id : String) (playbackIds : List String)
  | liveStreamIdle (id : String)
  | assetReady (id : String) (playbackIds : List String)
      (createdAt : Option Nat) (liveStreamId : Option String)
  | other (type : String)
deriving DecidableEq, Repr

/-- The session id an event refers to: `data.id` for the live-stream
events, `data.live_stream_id` for `video.asset.ready`. -/
def MuxEvent.sessionId : MuxEvent → Option String
  | .liveStreamActive i _ => some i
  | .liveStreamIdle i => some i
  | .assetReady _ _ _ ls => ls
  | .other _ => none

/-- Event dispatch of the stricter webhook handler (`webhooks.mux.tsx`,
first variant), after signature verification succeeded.  Returns the HTTP
status code and the post-state.

* `video.live_stream.active`: set the liveness cache to `"live"` and
  opportunistically persist a not-yet-known playback id; does NOT touch
  `status` and emits no event (stream goes LIVE only via the merchant
  button).
* `video.live_stream.idle`: set the cache to `"ended"`, append a
  `STREAM_ENDED` event, set `status := ENDED` and `endedAt`.
* `video.asset.ready`: persist the recorded-asset columns unless
  `muxAssetId` is already set (idempotent skip).
* anything else: logged and discarded. -/
def handleMuxEvent : MuxEvent → Nat → AppState → Nat × AppState
  | .liveStreamActive lsId pids, _now, st =>
    match findByMuxStreamId st.streams lsId with
    | none => (404, st)
    | some stream =>
      let playbackId := pids.head?
      let streams' :=
        match playbackId, stream.muxPlaybackId with
        | some p, none =>
          dbUpdateStream st.streams stream.id (fun s => { s with muxPlaybackId := some p })
        | _, _ => st.streams
      (200, { st with streams := streams',
                      cache := cacheSet st.cache stream.id "live" })
  | .liveStreamIdle lsId, now, st =>
    match findByMuxStreamId st.streams lsId with
    | none => (404, st)
    | some stream =>
      let ev : StreamEvent :=
        { streamId := stream.id, type := .STREAM_ENDED,
          payload := { muxStreamId := some lsId, timestamp := some now } }
      (200, { st with cache := cacheSet st.cache stream.id "ended",
                      events := st.events ++ [ev],
                      streams := dbUpdateStream st.streams stream.id
                        (fun s => { s with status := .ENDED, endedAt := some now }) })
  | .assetReady assetId pids createdAt lsIdOpt, now, st =>
    match lsIdOpt with
    | none => (200, st)
    | some lsId =>
      match findByMuxStreamId st.streams lsId with
      | none => (404, st)
      | some stream =>
        if stream.muxAssetId.isSome then (200, st)
        else
          let created := createdAt.getD now
          (200, { st with streams := dbUpdateStream st.streams stream.id (fun s =>
            let s1 := { s with muxAssetId := some assetId,
                               muxAssetCreatedAt := some created }
            match pids.head? with
            | some p => { s1 with muxAssetPlaybackId := some p }
            | none => s1) })
  | .other _, _, st => (200, st)

/-- The incoming webhook request as the handler sees it: HTTP method, raw
body, and the `Mux-Signature` header. -/
structure WebhookRequest where
  methodIsPost : Bool
  rawBody : String
  signature : Option String
deriving DecidableEq, Repr

/-- The full webhook action (`webhooks.mux.tsx`, stricter variant).
`verify rawBody signature secret` models the opaque
`mux.webhooks.unwrap` SDK call: `none` means it threw (invalid
signature), `some ev` is the trusted event.  `secret` is
`process.env.MUX_WEBHOOK_SIGNING_SECRET`.  Fail-closed ordering as in the
source: non-POST 405, missing header 401, missing secret 401, failed
verification 401 — all before any state is read or written. -/
def muxWebhookAction (verify : String → String → String → Option MuxEvent)
    (secret : Option String) (req : WebhookRequest) (now : Nat)
    (st : AppState) : Nat × AppState :=
  if !req.methodIsPost then (405, st)
  else
    match req.signature with
    | none => (401, st)
    | some sig =>
      match secret with
      | none => (401, st)
      | some sec =>
        match verify req.rawBody sig sec with
        | none => (401, st)
        | some ev => handleMuxEvent ev now st

/-- Result of a merchant form action: `{success: true, ...}` or
`{error: msg}`. -/
inductive ActionResult
  | ok (streamId : String)
  | err (msg : String)
deriving DecidableEq, Repr

/-- The pre-flight `startStreaming` action
(`app.streams.new.preflight.tsx`, stricter flow).  Guards, in source
order: missing `streamId` → error; tenant-scoped lookup fails → error;
`status === "LIVE"` → error; readiness (`redis.get` of the liveness key
equals `"live"` AND `muxPlaybackId` set) fails → error.  On success:
`status := LIVE`, `startedAt := now`, then append a `STREAM_STARTED`
event.  The source stamps only `startedAt` (not `liveStartedAt`). -/
def startStreamingAction (shop : String) (streamIdOpt : Option String)
    (now : Nat) (st : AppState) : ActionResult × AppState :=
  match streamIdOpt with
  | none => (.err "Stream ID required", st)
  | some streamId =>
    match findByIdShop st.streams streamId shop with
    | none => (.err "Stream not found", st)
    | some stream =>
      if stream.status == .LIVE then
        (.err "Stream is already live", st)
      else
        let isReady :=
          (cacheGet st.cache streamId == some "live") && stream.muxPlaybackId.isSome
        if !isReady then
          (.err "Stream is not ready. Please ensure OBS is streaming and all checks pass.", st)
        else
          let streams' := dbUpdateStream st.streams streamId
            (fun s => { s with status := .LIVE, startedAt := some now })
          let ev : StreamEvent :=
            { streamId := streamId, type := .STREAM_STARTED, payload := {} }
          (.ok streamId, { st with streams := streams', events := st.events ++ [ev] })

/-- The merchant `endStream` action (`app.streams.$id.live.tsx`): after the
tenant-scoped lookup it unconditionally sets `status := ENDED`,
`endedAt := now`, and appends a `STREAM_ENDED` event — there is no check of
the stream's current status. -/
def endStreamAction (shop streamId : String) (now : Nat) (st : AppState) :
    ActionResult × AppState :=
  match findByIdShop st.streams streamId shop with
  | none => (.err "Stream not found", st)
  | some _stream =>
    let streams' := dbUpdateStream st.streams streamId
      (fun s => { s with status := .ENDED, endedAt := some now })
    let ev : StreamEvent :=
      { streamId := streamId, type := .STREAM_ENDED, payload := {} }
    (.ok streamId, { st with streams := streams', events := st.events ++ [ev] })

/-- Request form of `POST /api/clips/create` as read by the action
(`formData.get` returns `null` for a missing field). -/
structure ClipRequest where
  methodIsPost : Bool
  streamId : Option String
  startTimeStr : Option String
  endTimeStr : Option String
  title : Option String
  description : Option String
deriving DecidableEq, Repr

/-- Observable outcome of the clip-creation action: HTTP status, the
post-state, and counters for the side effects the claims speak about —
`streamLookups` (`db.stream.findFirst` calls) and `muxAssetCreates`
(`mux.video.assets.create` calls). -/
structure ClipOutcome where
  status : Nat
  state : AppState
  streamLookups : Nat
  muxAssetCreates : Nat
deriving DecidableEq, Repr

/-- JavaScript truthiness of a `formData.get` result: `null` and `""` are
falsy. -/
def truthy : Option String → Bool
  | none => false
  | some s => !s.isEmpty

/-- The clip-creation endpoint (`api.clips.create.tsx`).  `parseInt`
models `parseInt(_, 10)` (`none` = `NaN`); `muxCreate start end` models
`mux.video.assets.create` (`none` = the SDK threw; otherwise the clip
asset id and its first playback id).  Validation order as in source:
missing fields → 400; `NaN`, `startTime < 0` or `endTime <= startTime` →
400, all before the stream lookup; unknown stream → 404; missing
`muxAssetId` or `startedAt` → 400; Mux failure → 500; otherwise the
`StreamClip` row is created. -/
def clipsCreateAction (parseIntJs : String → Option Int)
    (muxCreate : Int → Int → Option (String × Option String))
    (shop : String) (req : ClipRequest) (st : AppState) : ClipOutcome :=
  if !req.methodIsPost then
    { status := 405, state := st, streamLookups := 0, muxAssetCreates := 0 }
  else if !(truthy req.streamId && truthy req.startTimeStr && truthy req.endTimeStr) then
    { status := 400, state := st, streamLookups := 0, muxAssetCreates := 0 }
  else
    let sid := req.streamId.getD ""
    let startTime? := parseIntJs (req.startTimeStr.getD "")
    let endTime? := parseIntJs (req.endTimeStr.getD "")
    match startTime?, endTime? with
    | some s, some e =>
      if s < 0 || e ≤ s then
        { status := 400, state := st, streamLookups := 0, muxAssetCreates := 0 }
      else
        match findByIdShop st.streams sid shop with
        | none => { status := 404, state := st, streamLookups := 1, muxAssetCreates := 0 }
        | some stream =>
          if !stream.muxAssetId.isSome then
            { status := 400, state := st, streamLookups := 1, muxAssetCreates := 0 }
          else if !stream.startedAt.isSome then
            { status := 400, state := st, streamLookups := 1, muxAssetCreates := 0 }
          else
            match muxCreate s e with
            | none =>
              { status := 500, state := st, streamLookups := 1, muxAssetCreates := 1 }
            | some (clipId, clipPlaybackId) =>
              let clip : StreamClip :=
                { streamId := sid, productId := none, muxClipId := clipId,
                  muxClipPlaybackId := clipPlaybackId,
                  startTime := s, endTime := e,
                  title := if truthy req.title then req.title.getD "" else
                    "Clip: " ++ toString s ++ "s - " ++ toString e ++ "s",
                  description := if truthy req.description then req.description else none }
              { status := 200,
                state := { st with clips := st.clips ++ [clip] },
                streamLookups := 1, muxAssetCreates := 1 }
    | _, _ =>
      -- `isNaN(startTime) || isNaN(endTime)` falls into the same 400 branch
      { status := 400, state := st, streamLookups := 0, muxAssetCreates := 0 }

/-- A `StreamProduct` row: ordered membership of a catalog item in one
stream's lineup.  `position` is the Postgres `INTEGER` column, so `Int`
(the `reorderProduct` action computes `position - 1`). -/
structure StreamProduct where
  id : String
  productId : String
  position : Int
deriving DecidableEq, Repr

/-- Stable insertion of a row into a position-sorted lineup. -/
def insertByPosition (p : StreamProduct) : List StreamProduct → List StreamProduct
  | [] => [p]
  | q :: qs =>
    if p.position ≤ q.position then p :: q :: qs
    else q :: insertByPosition p qs

/-- Sort a lineup by `position` (the `.sort((a, b) => a.position -
b.position)` call in `removeProduct`; JS array sort is stable, as is this
insertion sort). -/
def sortByPosition : List StreamProduct → List StreamProduct
  | [] => []
  | p :: ps => insertByPosition p (sortByPosition ps)

/-- `Math.max(...ps.map(p => p.position))` with the source's `-1` default
for an empty lineup. -/
def maxPosition (ps : List StreamProduct) : Int :=
  match ps.map (·.position) with
  | [] => -1
  | x :: xs => xs.foldl max x

/-- `removeProduct` (`app.streams.$id.tsx`): delete the row, then reindex
the remaining rows — sorted by position — to dense positions `0..M-1`. -/
def removeProduct (ps : List StreamProduct) (streamProductId : String) :
    List StreamProduct :=
  let remaining := sortByPosition (ps.filter (fun p => p.id != streamProductId))
  remaining.mapIdx (fun i p => { p with position := (i : Int) })

/-- `reorderProduct` (`app.streams.$id.tsx`): move a row one step up or
down by swapping positions with the row currently at the target position;
a missing row or an edge position is a no-op on the table. -/
def reorderProduct (ps : List StreamProduct) (streamProductId : String)
    (up : Bool) : List StreamProduct :=
  match ps.find? (fun p => p.id == streamProductId) with
  | none => ps
  | some sp =>
    let currentPosition := sp.position
    let newPosition := if up then currentPosition - 1 else currentPosition + 1
    match ps.find? (fun p => p.position == newPosition) with
    | none => ps
    | some target =>
      ps.map (fun p =>
        if p.id == streamProductId then { p with position := newPosition }
        else if p.id == target.id then { p with position := currentPosition }
        else p)

/-- `addProducts` (`app.streams.$id.tsx`): filter out catalog ids already
in the lineup, then append the rest at positions `maxPosition + 1, ...`.
Fresh row ids are `newIdBase ++ index`. -/
def addProducts (ps : List StreamProduct) (productIds : List String)
    (newIdBase : String) : List StreamProduct :=
  let maxPos := maxPosition ps
  let existingIds := ps.map (·.productId)
  let newOnes := productIds.filter (fun pid => !existingIds.contains pid)
  ps ++ newOnes.mapIdx (fun i pid =>
    { id := newIdBase ++ toString i, productId := pid,
      position := maxPos + (i : Int) + 1 })

/-- The three lineup mutations of claim scope, as one operation type. -/
inductive LineupOp
  | remove (streamProductId : String)
  | reorder (streamProductId : String) (up : Bool)
  | add (productIds : List String) (newIdBase : String)
deriving DecidableEq, Repr

/-- Apply a lineup operation. -/
def applyLineupOp : LineupOp → List StreamProduct → List StreamProduct
  | .remove i, ps => removeProduct ps i
  | .reorder i u, ps => reorderProduct ps i u
  | .add pids b, ps => addProducts ps pids b

/-- The lineup invariant of the spec: positions are exactly the dense
zero-based range `0..N-1` (uniqueness and contiguity in one statement,
as a permutation of the range). -/
def contiguousPositions (ps : List StreamProduct) : Prop :=
  (ps.map (·.position)).Perm ((List.range ps.length).map (fun n : Nat => (n : Int)))

/-- Primary-key invariant of the `Stream` table: row ids are unique. -/
def streamIdsNodup (st : AppState) : Prop :=
  (st.streams.map (·.id)).Nodup

/-- The operations that mutate a stream's lifecycle fields: the merchant
start action, the merchant end action, and the webhook handler (any
verified event — encoder-idle is the one that ends streams). -/
inductive MutOp
  | merchantStart (shop : String) (streamId : Option String)
  | merchantEnd (shop : String) (streamId : String)
  | webhookEvent (ev : MuxEvent)

/-- State effect of one mutating operation executed at time `now`. -/
def applyMutOp (op : MutOp) (now : Nat) (st : AppState) : AppState :=
  match op with
  | .merchantStart shop sid => (startStreamingAction shop sid now st).2
  | .merchantEnd shop sid => (endStreamAction shop sid now st).2
  | .webhookEvent ev => (handleMuxEvent ev now st).2

/-- The lifecycle invariant of the spec: `LIVE` streams have `startedAt`;
`ENDED` streams have `endedAt`, and when both timestamps are present the
end is no earlier than the start. -/
def lifecycleInv (s : Stream) : Prop :=
  (s.status = .LIVE → s.startedAt.isSome) ∧
  (s.status = .ENDED → s.endedAt.isSome ∧
    ∀ a b, s.startedAt = some a → s.endedAt = some b → a ≤ b)

/-- `startedAt`, when stamped, is a past instant: every start timestamp
was taken from the clock of an earlier request. -/
def stampedBy (s : Stream) (now : Nat) : Prop :=
  ∀ a, s.startedAt = some a → a ≤ now

/-- A stream that passed every pre-flight check: `SCHEDULED`, Mux session
and playback id present, no timestamps yet. -/
def readyStream : Stream :=
  { id := "s1", shop := "shop1", title := "Launch", status := .SCHEDULED,
    scheduledAt := none, startedAt := none, liveStartedAt := none,
    endedAt := none, muxStreamId := some "mux1", muxPlaybackId := some "pb1",
    muxAssetId := none, muxAssetPlaybackId := none, muxAssetCreatedAt := none }

/-- State in which `readyStream` exists and the liveness cache already says
`"live"` (the encoder-active webhook has fired). -/
def readyState : AppState :=
  { streams := [readyStream], events := [], clips := [],
    cache := [("s1", "live")] }

/-- A three-product lineup at dense positions 0, 1, 2. -/
def exLineup3 : List StreamProduct :=
  [ { id := "p0", productId := "A", position := 0 },
    { id := "p1", productId := "B", position := 1 },
    { id := "p2", productId := "C", position := 2 } ]

end ShopStream

namespace ShopStream

/-! ## Basic lemmas about the embedded primitives -/

theorem cacheGet_map_set (c : List (String × String)) (k v : String) :
    cacheGet (c.map (fun e => if e.1 == k then (k, v) else e)) k
      = if c.any (fun e => e.1 == k) then some v else none := by
  induction c with
  | nil => simp [cacheGet]
  | cons e t ih =>
    by_cases he : e.1 == k
    · simp [cacheGet, List.find?, he]
    · simp only [List.map_cons, he, if_false, List.any_cons, Bool.false_or]
      simpa [cacheGet, List.find?, he] using ih

theorem cacheGet_append_single (c : List (String × String)) (k v : String)
    (h : c.any (fun e => e.1 == k) = false) :
    cacheGet (c ++ [(k, v)]) k = some v := by
  induction c with
  | nil => simp [cacheGet, List.find?]
  | cons e t ih =>
    simp only [List.any_cons, Bool.or_eq_false_iff] at h
    simpa [cacheGet, List.find?, h.1] using ih h.2

theorem cacheGet_set_self (c : List (String × String)) (k v : String) :
    cacheGet (cacheSet c k v) k = some v := by
  unfold cacheSet
  by_cases h : c.any (fun e => e.1 == k)
  · simpa [h] using cacheGet_map_set c k v
  · simp only [Bool.not_eq_true] at h
    simp [h, cacheGet_append_single c k v h]

theorem eq_of_mem_of_ids_nodup {l : List Stream}
    (h : (l.map (·.id)).Nodup) {a b : Stream}
    (ha : a ∈ l) (hb : b ∈ l) (hab : a.id = b.id) : a = b :=
  List.inj_on_of_nodup_map h ha hb hab

/-! ## C1: unauthenticated webhook requests are rejected with no mutation -/

/-- C1: a POST to the webhook endpoint that is missing the
`Mux-Signature` header, or arrives while no signing secret is configured,
or whose signature fails verification, yields a 401 response and leaves
the whole state (Stream table, liveness cache, StreamEvent log, clips)
untouched. -/
theorem webhook_unauthorized_no_mutation
    (verify : String → String → String → Option MuxEvent)
    (secret : Option String) (req : WebhookRequest) (now : Nat)
    (st : AppState) (hpost : req.methodIsPost = true)
    (hfail : req.signature = none ∨ secret = none ∨
      (∃ sig sec, req.signature = some sig ∧ secret = some sec ∧
        verify req.rawBody sig sec = none)) :
    muxWebhookAction verify secret req now st = (401, st) := by
  unfold muxWebhookAction
  rcases hfail with h | h | ⟨sig, sec, hsig, hsec, hv⟩
  · simp [hpost, h]
  · cases hs : req.signature <;> simp [hpost, hs, h]
  · simp [hpost, hsig, hsec, hv]

/-- Witness for C1: concrete rejected request (valid header and secret,
verification fails). -/
theorem webhook_unauthorized_no_mutation_witness :
    muxWebhookAction (fun _ _ _ => none) (some "sec")
      { methodIsPost := true, rawBody := "body", signature := some "sig" }
      7 readyState = (401, readyState) :=
  webhook_unauthorized_no_mutation _ _ _ _ _ rfl
    (Or.inr (Or.inr ⟨"sig", "sec", rfl, rfl, rfl⟩))

/-! ## C2: verified events with an unknown session id → 404, no mutation -/

/-- C2: a verified webhook event (encoder-active, encoder-idle or
asset-ready) whose session id resolves to no stream yields a 404 response
and mutates nothing. -/
theorem webhook_unknown_session_404
    (verify : String → String → String → Option MuxEvent)
    (sec sig : String) (req : WebhookRequest) (now : Nat) (st : AppState)
    (ev : MuxEvent) (sid : String)
    (hpost : req.methodIsPost = true) (hsig : req.signature = some sig)
    (hv : verify req.rawBody sig sec = some ev)
    (hsid : ev.sessionId = some sid)
    (hunknown : findByMuxStreamId st.streams sid = none) :
    muxWebhookAction verify (some sec) req now st = (404, st) := by
  unfold muxWebhookAction
  simp only [hpost, Bool.not_true, Bool.false_eq_true, if_false, hsig, hv]
  cases ev with
  | liveStreamActive i pids =>
    simp only [MuxEvent.sessionId, Option.some.injEq] at hsid
    subst hsid
    simp [handleMuxEvent, hunknown]
  | liveStreamIdle i =>
    simp only [MuxEvent.sessionId, Option.some.injEq] at hsid
    subst hsid
    simp [handleMuxEvent, hunknown]
  | assetReady a pids created ls =>
    simp only [MuxEvent.sessionId] at hsid
    subst hsid
    simp [handleMuxEvent, hunknown]
  | other t => simp [MuxEvent.sessionId] at hsid

/-- Witness for C2: a concrete idle event for a session no stream owns. -/
theorem webhook_unknown_session_404_witness :
    muxWebhookAction (fun _ _ _ => some (.liveStreamIdle "ghost"))
      (some "sec")
      { methodIsPost := true, rawBody := "b", signature := some "sig" }
      5 readyState = (404, readyState) :=
  webhook_unknown_session_404 _ "sec" "sig" _ 5 readyState
    (.liveStreamIdle "ghost") "ghost" rfl rfl rfl rfl (by decide)

/-! ## C9: asset-ready replay is a no-op when the asset id is stored -/

/-- C9: replaying a verified `asset-ready` event for a session whose
stream already has `muxAssetId` set changes nothing and returns 200. -/
theorem assetReady_idempotent
    (verify : String → String → String → Option MuxEvent)
    (sec sig : String) (req : WebhookRequest) (now : Nat) (st : AppState)
    (assetId : String) (pids : List String) (created : Option Nat)
    (sid : String) (stream : Stream) (oldAsset : String)
    (hpost : req.methodIsPost = true) (hsig : req.signature = some sig)
    (hv : verify req.rawBody sig sec
      = some (.assetReady assetId pids created (some sid)))
    (hfind : findByMuxStreamId st.streams sid = some stream)
    (hset : stream.muxAssetId = some oldAsset) :
    muxWebhookAction verify (some sec) req now st = (200, st) := by
  unfold muxWebhookAction
  simp [hpost, hsig, hv, handleMuxEvent, hfind, hset]

/-- Witness for C9: replay against a stream whose asset id is stored. -/
theorem assetReady_idempotent_witness :
    muxWebhookAction
      (fun _ _ _ => some (.assetReady "a2" ["apb2"] (some 3) (some "mux1")))
      (some "sec")
      { methodIsPost := true, rawBody := "b", signature := some "sig" } 9
      { streams := [{ readyStream with muxAssetId := some "a1" }],
        events := [], clips := [], cache := [] }
      = (200, { streams := [{ readyStream with muxAssetId := some "a1" }],
                events := [], clips := [], cache := [] }) :=
  assetReady_idempotent _ "sec" "sig" _ 9 _ "a2" ["apb2"] (some 3) "mux1"
    { readyStream with muxAssetId := some "a1" } "a1"
    rfl rfl rfl (by decide) rfl

/-! ## C3: encoder-idle ends the matched stream, whatever its status -/

/-- C3: a verified encoder-idle event whose session id matches a stream
returns 200, sets that stream's liveness-cache entry to `"ended"`, appends
exactly one `STREAM_ENDED` event for it (and nothing else to the log), and
sets `status := ENDED` with `endedAt` stamped — with no hypothesis on the
stream's prior status. -/
theorem webhook_idle_ends_stream
    (verify : String → String → String → Option MuxEvent)
    (sec sig : String) (req : WebhookRequest) (now : Nat) (st : AppState)
    (sid : String) (stream : Stream)
    (hpost : req.methodIsPost = true) (hsig : req.signature = some sig)
    (hv : verify req.rawBody sig sec = some (.liveStreamIdle sid))
    (hfind : findByMuxStreamId st.streams sid = some stream) :
    (muxWebhookAction verify (some sec) req now st).1 = 200 ∧
    cacheGet (muxWebhookAction verify (some sec) req now st).2.cache
      stream.id = some "ended" ∧
    (muxWebhookAction verify (some sec) req now st).2.events
      = st.events ++ [{ streamId := stream.id, type := .STREAM_ENDED,
                        payload := { muxStreamId := some sid,
                                     timestamp := some now } }] ∧
    ∀ s' ∈ (muxWebhookAction verify (some sec) req now st).2.streams,
      s'.id = stream.id → s'.status = .ENDED ∧ s'.endedAt = some now := by
  have hred : muxWebhookAction verify (some sec) req now st =
      (200, { st with cache := cacheSet st.cache stream.id "ended",
                      events := st.events ++
                        [{ streamId := stream.id, type := .STREAM_ENDED,
                           payload := { muxStreamId := some sid,
                                        timestamp := some now } }],
                      streams := dbUpdateStream st.streams stream.id
                        (fun s => { s with status := .ENDED,
                                            endedAt := some now }) }) := by
    unfold muxWebhookAction
    simp [hpost, hsig, hv, handleMuxEvent, hfind]
  rw [hred]
  refine ⟨rfl, cacheGet_set_self _ _ _, rfl, ?_⟩
  intro s' hs' hid
  simp only [dbUpdateStream, List.mem_map] at hs'
  obtain ⟨s, _, rfl⟩ := hs'
  by_cases h : s.id == stream.id
  · simp [h]
  · simp only [h, if_neg, Bool.false_eq_true, not_false_eq_true, if_false] at hid ⊢
    exact absurd (by simpa using hid) (by simpa using h)

/-- Witness for C3: the idle event hits a concrete LIVE stream. -/
theorem webhook_idle_ends_stream_witness :
    (muxWebhookAction (fun _ _ _ => some (.liveStreamIdle "mux1"))
      (some "sec")
      { methodIsPost := true, rawBody := "b", signature := some "sig" } 50
      { streams := [{ readyStream with status := .LIVE, startedAt := some 10 }],
        events := [], clips := [], cache := [("s1", "live")] }).1 = 200 ∧
    cacheGet (muxWebhookAction (fun _ _ _ => some (.liveStreamIdle "mux1"))
      (some "sec")
      { methodIsPost := true, rawBody := "b", signature := some "sig" } 50
      { streams := [{ readyStream with status := .LIVE, startedAt := some 10 }],
        events := [], clips := [], cache := [("s1", "live")] }).2.cache
      "s1" = some "ended" ∧
    (muxWebhookAction (fun _ _ _ => some (.liveStreamIdle "mux1"))
      (some "sec")
      { methodIsPost := true, rawBody := "b", signature := some "sig" } 50
      { streams := [{ readyStream with status := .LIVE, startedAt := some 10 }],
        events := [], clips := [], cache := [("s1", "live")] }).2.events
      = [{ streamId := "s1", type := .STREAM_ENDED,
           payload := { muxStreamId := some "mux1", timestamp := some 50 } }] ∧
    ∀ s' ∈ (muxWebhookAction (fun _ _ _ => some (.liveStreamIdle "mux1"))
      (some "sec")
      { methodIsPost := true, rawBody := "b", signature := some "sig" } 50
      { streams := [{ readyStream with status := .LIVE, startedAt := some 10 }],
        events := [], clips := [], cache := [("s1", "live")] }).2.streams,
      s'.id = "s1" → s'.status = .ENDED ∧ s'.endedAt = some 50 := by
  have h := webhook_idle_ends_stream (fun _ _ _ => some (.liveStreamIdle "mux1"))
    "sec" "sig"
    { methodIsPost := true, rawBody := "b", signature := some "sig" } 50
    { streams := [{ readyStream with status := .LIVE, startedAt := some 10 }],
      events := [], clips := [], cache := [("s1", "live")] }
    "mux1" { readyStream with status := .LIVE, startedAt := some 10 }
    rfl rfl rfl (by decide)
  simpa using h

/-! ## C4: encoder-active only flips the cache (stricter flow) -/

/-- C4: in the stricter flow, a verified encoder-active event for a known
stream returns 200, sets that stream's cache entry to `"live"`, appends no
event, creates no clip, and — row by row — leaves every Stream field
unchanged except that a not-yet-known playback id may be persisted
(`muxPlaybackId` goes from `none` to the event's first playback id). -/
theorem webhook_active_frame
    (verify : String → String → String → Option MuxEvent)
    (sec sig : String) (req : WebhookRequest) (now : Nat) (st : AppState)
    (sid : String) (pids : List String) (stream : Stream)
    (hids : streamIdsNodup st)
    (hpost : req.methodIsPost = true) (hsig : req.signature = some sig)
    (hv : verify req.rawBody sig sec = some (.liveStreamActive sid pids))
    (hfind : findByMuxStreamId st.streams sid = some stream) :
    (muxWebhookAction verify (some sec) req now st).1 = 200 ∧
    cacheGet (muxWebhookAction verify (some sec) req now st).2.cache
      stream.id = some "live" ∧
    (muxWebhookAction verify (some sec) req now st).2.events = st.events ∧
    (muxWebhookAction verify (some sec) req now st).2.clips = st.clips ∧
    List.Forall₂ (fun s s' =>
        s'.id = s.id ∧ s'.shop = s.shop ∧ s'.title = s.title ∧
        s'.status = s.status ∧ s'.scheduledAt = s.scheduledAt ∧
        s'.startedAt = s.startedAt ∧ s'.liveStartedAt = s.liveStartedAt ∧
        s'.endedAt = s.endedAt ∧ s'.muxStreamId = s.muxStreamId ∧
        s'.muxAssetId = s.muxAssetId ∧
        s'.muxAssetPlaybackId = s.muxAssetPlaybackId ∧
        s'.muxAssetCreatedAt = s.muxAssetCreatedAt ∧
        (s'.muxPlaybackId = s.muxPlaybackId ∨
          (s.muxPlaybackId = none ∧ s'.muxPlaybackId = pids.head?)))
      st.streams (muxWebhookAction verify (some sec) req now st).2.streams := by
  have hmem : stream ∈ st.streams := List.mem_of_find?_eq_some hfind
  by_cases hcap : pids.head?.isSome ∧ stream.muxPlaybackId = none
  · obtain ⟨hhead, hpb⟩ := hcap
    obtain ⟨p, hp⟩ := Option.isSome_iff_exists.mp hhead
    have hred : muxWebhookAction verify (some sec) req now st =
        (200, { st with
          streams := dbUpdateStream st.streams stream.id
            (fun s => { s with muxPlaybackId := some p }),
          cache := cacheSet st.cache stream.id "live" }) := by
      unfold muxWebhookAction
      simp [hpost, hsig, hv, handleMuxEvent, hfind, hp, hpb]
    rw [hred]
    refine ⟨rfl, cacheGet_set_self _ _ _, rfl, rfl, ?_⟩
    rw [dbUpdateStream, List.forall₂_map_right_iff]
    refine List.forall₂_same.mpr (fun s hsmem => ?_)
    by_cases h : s.id == stream.id
    · have hseq : s = stream :=
        eq_of_mem_of_ids_nodup hids hsmem hmem (by simpa using h)
      rw [if_pos h]
      refine ⟨rfl, rfl, rfl, rfl, rfl, rfl, rfl, rfl, rfl, rfl, rfl, rfl, ?_⟩
      exact Or.inr ⟨by rw [hseq]; exact hpb, hp.symm⟩
    · simp [h]
  · have hred : muxWebhookAction verify (some sec) req now st =
        (200, { st with cache := cacheSet st.cache stream.id "live" }) := by
      unfold muxWebhookAction
      simp only [hpost, Bool.not_true, Bool.false_eq_true, if_false, hsig,
        hv, handleMuxEvent, hfind]
      cases hhead : pids.head? with
      | none => rfl
      | some p =>
        cases hpb : stream.muxPlaybackId with
        | none => exact absurd ⟨by simp [hhead], hpb⟩ hcap
        | some q => rfl
    rw [hred]
    refine ⟨rfl, cacheGet_set_self _ _ _, rfl, rfl, ?_⟩
    exact List.forall₂_same.mpr (fun s _ => by simp)

/-- Witness for C4: active event against `readyState` (nodup ids,
playback id already present, so only the cache changes). -/
theorem webhook_active_frame_witness :
    (muxWebhookAction
      (fun _ _ _ => some (.liveStreamActive "mux1" ["pbX"])) (some "sec")
      { methodIsPost := true, rawBody := "b", signature := some "sig" } 3
      readyState).1 = 200 ∧
    cacheGet (muxWebhookAction
      (fun _ _ _ => some (.liveStreamActive "mux1" ["pbX"])) (some "sec")
      { methodIsPost := true, rawBody := "b", signature := some "sig" } 3
      readyState).2.cache "s1" = some "live" ∧
    (muxWebhookAction
      (fun _ _ _ => some (.liveStreamActive "mux1" ["pbX"])) (some "sec")
      { methodIsPost := true, rawBody := "b", signature := some "sig" } 3
      readyState).2.events = [] := by
  have h := webhook_active_frame
    (fun _ _ _ => some (.liveStreamActive "mux1" ["pbX"])) "sec" "sig"
    { methodIsPost := true, rawBody := "b", signature := some "sig" } 3
    readyState "mux1" ["pbX"] readyStream (by unfold streamIdsNodup; decide)
    rfl rfl rfl (by decide)
  exact ⟨h.1, h.2.1, h.2.2.1⟩

/-! ## C10: the merchant end action ignores the current status -/

/-- C10: for any stream the shop owns — whatever its current status — the
`endStream` action succeeds, sets `status := ENDED`, stamps `endedAt`,
appends exactly one `STREAM_ENDED` event, and touches neither the cache
nor the clips. -/
theorem endStream_regardless_of_status
    (shop sid : String) (now : Nat) (st : AppState) (stream : Stream)
    (hfind : findByIdShop st.streams sid shop = some stream) :
    (endStreamAction shop sid now st).1 = .ok sid ∧
    (endStreamAction shop sid now st).2.events
      = st.events ++ [{ streamId := sid, type := .STREAM_ENDED,
                        payload := {} }] ∧
    (∀ s' ∈ (endStreamAction shop sid now st).2.streams,
      s'.id = sid → s'.status = .ENDED ∧ s'.endedAt = some now) ∧
    (endStreamAction shop sid now st).2.cache = st.cache ∧
    (endStreamAction shop sid now st).2.clips = st.clips := by
  unfold endStreamAction
  rw [hfind]
  refine ⟨rfl, rfl, ?_, rfl, rfl⟩
  intro s' hs' hid
  simp only [dbUpdateStream, List.mem_map] at hs'
  obtain ⟨s, _, rfl⟩ := hs'
  by_cases h : s.id == sid
  · simp [h]
  · simp only [h, Bool.false_eq_true, if_false] at hid ⊢
    exact absurd (by simpa using hid) (by simpa using h)

/-- Witness for C10: ending a stream that is still in `DRAFT` (never
started) succeeds and stamps `endedAt` all the same. -/
theorem endStream_regardless_of_status_witness :
    (endStreamAction "shop1" "s1" 77
      { streams := [{ readyStream with status := .DRAFT }], events := [],
        clips := [], cache := [] }).1 = .ok "s1" ∧
    (endStreamAction "shop1" "s1" 77
      { streams := [{ readyStream with status := .DRAFT }], events := [],
        clips := [], cache := [] }).2.events
      = [{ streamId := "s1", type := .STREAM_ENDED, payload := {} }] ∧
    ∀ s' ∈ (endStreamAction "shop1" "s1" 77
      { streams := [{ readyStream with status := .DRAFT }], events := [],
        clips := [], cache := [] }).2.streams,
      s'.id = "s1" → s'.status = .ENDED ∧ s'.endedAt = some 77 := by
  have h := endStream_regardless_of_status "shop1" "s1" 77
    { streams := [{ readyStream with status := .DRAFT }], events := [],
      clips := [], cache := [] }
    { readyStream with status := .DRAFT } (by decide)
  simpa using ⟨h.1, h.2.1, h.2.2.1⟩

/-! ## C5: the pre-flight start action never stamps `liveStartedAt` -/

/-- C5 (code bug): on a fully ready stream (`SCHEDULED`, liveness cache
`"live"`, playback id present) the pre-flight `startStreaming` action
succeeds, sets `status := LIVE`, stamps `startedAt`, and appends a
`STREAM_STARTED` event — but leaves `liveStartedAt` at `none`.  The repo's
own `Week-2_Handoff.md` documents that this action "sets
`Stream.startedAt` and `Stream.liveStartedAt` (for timer)", and the live
control page's elapsed-time timer reads `liveStartedAt`; no code path
ever writes it. -/
theorem startStreaming_success_omits_liveStartedAt :
    (startStreamingAction "shop1" (some "s1") 100 readyState).1
      = .ok "s1" ∧
    ((startStreamingAction "shop1" (some "s1") 100 readyState).2.streams.map
      (·.status)) = [.LIVE] ∧
    ((startStreamingAction "shop1" (some "s1") 100 readyState).2.streams.map
      (·.startedAt)) = [some 100] ∧
    ((startStreamingAction "shop1" (some "s1") 100 readyState).2.streams.map
      (·.liveStartedAt)) = [none] ∧
    (startStreamingAction "shop1" (some "s1") 100 readyState).2.events
      = [{ streamId := "s1", type := .STREAM_STARTED, payload := {} }] :=
  ⟨rfl, rfl, rfl, rfl, rfl⟩

/-! ## C8: clip creation rejects bad timing before any lookup or call -/

/-- C8: a clip-creation request whose parsed `startTime` is negative or
whose parsed `endTime` is ≤ `startTime` is answered 400 with the state
untouched, zero stream lookups and zero Mux asset-create calls. -/
theorem clipsCreate_rejects_invalid_timing
    (parseIntJs : String → Option Int)
    (muxCreate : Int → Int → Option (String × Option String))
    (shop : String) (req : ClipRequest) (st : AppState) (s e : Int)
    (hpost : req.methodIsPost = true)
    (hsid : truthy req.streamId = true)
    (hstr : truthy req.startTimeStr = true)
    (hetr : truthy req.endTimeStr = true)
    (hps : parseIntJs (req.startTimeStr.getD "") = some s)
    (hpe : parseIntJs (req.endTimeStr.getD "") = some e)
    (hbad : s < 0 ∨ e ≤ s) :
    clipsCreateAction parseIntJs muxCreate shop req st
      = { status := 400, state := st, streamLookups := 0,
          muxAssetCreates := 0 } := by
  unfold clipsCreateAction
  have hb : (decide (s < 0) || decide (e ≤ s)) = true := by
    rcases hbad with h | h <;> simp [h]
  simp [hpost, hsid, hstr, hetr, hps, hpe, hb]

/-- Witness for C8: `startTime = 10`, `endTime = 10` (equal bounds). -/
theorem clipsCreate_rejects_invalid_timing_witness :
    clipsCreateAction
      (fun str => if str == "10" then some 10 else none)
      (fun _ _ => some ("c", none)) "shop1"
      { methodIsPost := true, streamId := some "s1",
        startTimeStr := some "10", endTimeStr := some "10",
        title := none, description := none } readyState
      = { status := 400, state := readyState, streamLookups := 0,
          muxAssetCreates := 0 } :=
  clipsCreate_rejects_invalid_timing _ _ "shop1" _ readyState 10 10
    rfl rfl rfl rfl rfl rfl (Or.inr le_rfl)

/-! ## C6: the lifecycle invariant is preserved by every mutation -/

theorem mem_dbUpdateStream {streams : List Stream} {sid : String}
    {f : Stream → Stream} {s' : Stream}
    (h : s' ∈ dbUpdateStream streams sid f) :
    ∃ s ∈ streams, s' = f s ∨ s' = s := by
  simp only [dbUpdateStream, List.mem_map] at h
  obtain ⟨s, hs, rfl⟩ := h
  refine ⟨s, hs, ?_⟩
  by_cases hc : s.id == sid <;> simp [hc]

theorem inv_weaken {s : Stream} {now now' : Nat} (h : now ≤ now')
    (hs : lifecycleInv s ∧ stampedBy s now) :
    lifecycleInv s ∧ stampedBy s now' :=
  ⟨hs.1, fun a ha => le_trans (hs.2 a ha) h⟩

theorem inv_transport {s s' : Stream} (h1 : s'.status = s.status)
    (h2 : s'.startedAt = s.startedAt) (h3 : s'.endedAt = s.endedAt)
    {now : Nat} (hs : lifecycleInv s ∧ stampedBy s now) :
    lifecycleInv s' ∧ stampedBy s' now := by
  obtain ⟨⟨hL, hE⟩, hstamp⟩ := hs
  refine ⟨⟨?_, ?_⟩, ?_⟩
  · rw [h1, h2]; exact hL
  · rw [h1, h2, h3]; exact hE
  · intro a ha; exact hstamp a (h2 ▸ ha)

theorem inv_set_live (s : Stream) {now now' : Nat} (h : now ≤ now') :
    lifecycleInv { s with status := .LIVE, startedAt := some now } ∧
    stampedBy { s with status := .LIVE, startedAt := some now } now' := by
  refine ⟨⟨fun _ => rfl, fun hE => ?_⟩, fun a ha => ?_⟩
  · exact absurd hE (by simp)
  · injection ha with ha; omega

theorem inv_set_ended (s : Stream) {now now' : Nat} (h : now ≤ now')
    (hs : stampedBy s now) :
    lifecycleInv { s with status := .ENDED, endedAt := some now } ∧
    stampedBy { s with status := .ENDED, endedAt := some now } now' := by
  refine ⟨⟨fun hL => absurd hL (by simp), fun _ => ⟨rfl, ?_⟩⟩, fun a ha => ?_⟩
  · intro a b ha hb
    injection hb with hb
    exact hb ▸ hs a ha
  · exact le_trans (hs a ha) h

/-- C6: every mutating operation — merchant start, merchant end, and any
webhook event (in particular encoder-idle) — preserves the lifecycle
invariant: `LIVE ⇒ startedAt` set, `ENDED ⇒ endedAt` set and
`startedAt ≤ endedAt` when both are set.  Start timestamps never exceed
the current clock, which is what makes the invariant inductive. -/
theorem lifecycle_invariant_preserved (op : MutOp) (now now' : Nat)
    (st : AppState) (hmono : now ≤ now')
    (hinv : ∀ s ∈ st.streams, lifecycleInv s ∧ stampedBy s now) :
    ∀ s' ∈ (applyMutOp op now st).streams,
      lifecycleInv s' ∧ stampedBy s' now' := by
  intro s' hs'
  cases op with
  | merchantStart shop sidOpt =>
    simp only [applyMutOp, startStreamingAction] at hs'
    split at hs'
    · exact inv_weaken hmono (hinv s' hs')
    · split at hs'
      · exact inv_weaken hmono (hinv s' hs')
      · split at hs'
        · exact inv_weaken hmono (hinv s' hs')
        · split at hs'
          · exact inv_weaken hmono (hinv s' hs')
          · simp only at hs'
            obtain ⟨s, hsmem, hcase⟩ := mem_dbUpdateStream hs'
            rcases hcase with rfl | rfl
            · exact inv_set_live s hmono
            · exact inv_weaken hmono (hinv _ hsmem)
  | merchantEnd shop sid =>
    simp only [applyMutOp, endStreamAction] at hs'
    split at hs'
    · exact inv_weaken hmono (hinv s' hs')
    · simp only at hs'
      obtain ⟨s, hsmem, hcase⟩ := mem_dbUpdateStream hs'
      rcases hcase with rfl | rfl
      · exact inv_set_ended s hmono (hinv s hsmem).2
      · exact inv_weaken hmono (hinv _ hsmem)
  | webhookEvent ev =>
    simp only [applyMutOp] at hs'
    cases ev with
    | liveStreamActive lsId pids =>
      simp only [handleMuxEvent] at hs'
      split at hs'
      · exact inv_weaken hmono (hinv s' hs')
      · simp only at hs'
        split at hs'
        · obtain ⟨s, hsmem, hcase⟩ := mem_dbUpdateStream hs'
          rcases hcase with rfl | rfl
          · exact inv_transport rfl rfl rfl (inv_weaken hmono (hinv s hsmem))
          · exact inv_weaken hmono (hinv _ hsmem)
        · exact inv_weaken hmono (hinv s' hs')
    | liveStreamIdle lsId =>
      simp only [handleMuxEvent] at hs'
      split at hs'
      · exact inv_weaken hmono (hinv s' hs')
      · simp only at hs'
        obtain ⟨s, hsmem, hcase⟩ := mem_dbUpdateStream hs'
        rcases hcase with rfl | rfl
        · exact inv_set_ended s hmono (hinv s hsmem).2
        · exact inv_weaken hmono (hinv _ hsmem)
    | assetReady assetId pids created lsOpt =>
      simp only [handleMuxEvent] at hs'
      split at hs'
      · exact inv_weaken hmono (hinv s' hs')
      · split at hs'
        · exact inv_weaken hmono (hinv s' hs')
        · split at hs'
          · exact inv_weaken hmono (hinv s' hs')
          · simp only at hs'
            obtain ⟨s, hsmem, hcase⟩ := mem_dbUpdateStream hs'
            rcases hcase with rfl | rfl
            · split
              · exact inv_transport rfl rfl rfl (inv_weaken hmono (hinv s hsmem))
              · exact inv_transport rfl rfl rfl (inv_weaken hmono (hinv s hsmem))
            · exact inv_weaken hmono (hinv _ hsmem)
    | other t => exact inv_weaken hmono (hinv s' hs')

/-- Witness for C6: ending the ready (SCHEDULED, never started) stream at
time 5 yields a stream that still satisfies the invariant at time 6. -/
theorem lifecycle_invariant_preserved_witness :
    lifecycleInv { readyStream with status := .ENDED, endedAt := some 5 } ∧
    stampedBy { readyStream with status := .ENDED, endedAt := some 5 } 6 :=
  lifecycle_invariant_preserved (.merchantEnd "shop1" "s1") 5 6 readyState
    (by omega)
    (by
      intro s hs
      simp only [readyState, List.mem_singleton] at hs
      subst hs
      exact ⟨⟨fun h => absurd h (by simp [readyStream]),
              fun h => absurd h (by simp [readyStream])⟩,
             fun a ha => by simp [readyStream] at ha⟩)
    { readyStream with status := .ENDED, endedAt := some 5 }
    (by decide)

/-! ## C7: lineup positions stay dense `0..N-1` under every operation -/

theorem eq_of_mem_of_map_nodup {α β : Type} (f : α → β) {l : List α}
    (h : (l.map f).Nodup) {a b : α} (ha : a ∈ l) (hb : b ∈ l)
    (hab : f a = f b) : a = b :=
  List.inj_on_of_nodup_map h ha hb hab

theorem map_mapIdx_position {α : Type} (f : Nat → α → StreamProduct)
    (g : Nat → Int) (hc : ∀ i a, (f i a).position = g i) (l : List α) :
    (l.mapIdx f).map (·.position) = (List.range l.length).map g := by
  rw [List.mapIdx_eq_enum_map, List.map_map]
  have h1 : ((fun p : StreamProduct => p.position) ∘ Function.uncurry f)
      = (g ∘ Prod.fst) := funext fun p => hc p.1 p.2
  rw [h1, ← List.map_map, List.enum_map_fst]

theorem contiguous_removeProduct (ps : List StreamProduct) (i : String) :
    contiguousPositions (removeProduct ps i) := by
  unfold contiguousPositions removeProduct
  rw [map_mapIdx_position _ (fun n : Nat => (n : Int)) (fun _ _ => rfl),
    List.length_mapIdx]

theorem foldl_max_mem (xs : List Int) (x : Int) :
    xs.foldl max x ∈ x :: xs := by
  induction xs generalizing x with
  | nil => simp
  | cons y ys ih =>
    have := ih (max x y)
    rcases List.mem_cons.mp this with h | h
    · rcases max_choice x y with hxy | hxy <;> rw [List.foldl_cons, h, hxy] <;> simp
    · simp [List.foldl_cons, List.mem_cons.mpr (Or.inr (List.mem_cons.mpr (Or.inr h)))]

theorem init_le_foldl_max (xs : List Int) : ∀ x : Int, x ≤ xs.foldl max x := by
  induction xs with
  | nil => intro x; simp
  | cons z zs ih =>
    intro x
    rw [List.foldl_cons]
    exact le_trans (le_max_left x z) (ih (max x z))

theorem le_foldl_max (xs : List Int) : ∀ x y : Int, y ∈ x :: xs →
    y ≤ xs.foldl max x := by
  induction xs with
  | nil =>
    intro x y h
    simp only [List.foldl_nil]
    rcases List.mem_cons.mp h with rfl | h2
    · exact le_rfl
    · simp at h2
  | cons z zs ih =>
    intro x y h
    rw [List.foldl_cons]
    rcases List.mem_cons.mp h with rfl | h2
    · exact le_trans (le_max_left y z) (init_le_foldl_max zs (max y z))
    · rcases List.mem_cons.mp h2 with rfl | h3
      · exact le_trans (le_max_right x y) (init_le_foldl_max zs (max x y))
      · exact ih (max x z) y (List.mem_cons.mpr (Or.inr h3))

theorem maxPosition_of_contiguous {ps : List StreamProduct}
    (h : contiguousPositions ps) :
    maxPosition ps = (ps.length : Int) - 1 := by
  unfold maxPosition
  cases hl : ps.map (·.position) with
  | nil =>
    have h0 : ps.length = 0 := by simpa using congrArg List.length hl
    simp [h0]
  | cons x xs =>
    have hperm : (x :: xs).Perm
        ((List.range ps.length).map (fun n : Nat => (n : Int))) := by
      rw [← hl]; exact h
    have hN : 0 < ps.length := by
      have := congrArg List.length hl
      simp only [List.length_map, List.length_cons] at this
      omega
    have hmem : xs.foldl max x ∈
        (List.range ps.length).map (fun n : Nat => (n : Int)) :=
      hperm.mem_iff.mp (foldl_max_mem xs x)
    obtain ⟨k, hk, hkm⟩ := by simpa using hmem
    have hub : ((ps.length : Int) - 1) ∈ x :: xs := by
      refine hperm.mem_iff.mpr ?_
      simp only [List.mem_map, List.mem_range]
      exact ⟨ps.length - 1, by omega, by omega⟩
    have h1 := le_foldl_max xs x _ hub
    show xs.foldl max x = (ps.length : Int) - 1
    omega

theorem contiguous_addProducts {ps : List StreamProduct}
    (h : contiguousPositions ps) (pids : List String) (b : String) :
    contiguousPositions (addProducts ps pids b) := by
  have hmax := maxPosition_of_contiguous h
  unfold contiguousPositions at h ⊢
  unfold addProducts
  rw [List.map_append,
    map_mapIdx_position _ (fun i => maxPosition ps + (i : Int) + 1)
      (fun _ _ => rfl),
    List.length_append, List.length_mapIdx, List.range_add,
    List.map_append, List.map_map]
  refine List.Perm.append h (List.Perm.of_eq ?_)
  refine List.map_congr_left (fun i hi => ?_)
  simp only [Function.comp_apply, hmax]
  omega

theorem contiguous_reorderProduct {ps : List StreamProduct}
    (hids : (ps.map (·.id)).Nodup) (h : contiguousPositions ps)
    (i : String) (u : Bool) :
    contiguousPositions (reorderProduct ps i u) := by
  unfold reorderProduct
  cases hf1 : ps.find? (fun p => p.id == i) with
  | none => exact h
  | some sp =>
    simp only
    cases hf2 : ps.find? (fun p =>
        p.position == (if u then sp.position - 1 else sp.position + 1)) with
    | none => exact h
    | some tp =>
      simp only
      set np : Int := if u then sp.position - 1 else sp.position + 1 with hnp
      have hnodup : ps.Nodup := hids.of_map
      have hsp_mem : sp ∈ ps := List.mem_of_find?_eq_some hf1
      have hsp_id : sp.id = i := by
        have := List.find?_some hf1; simpa using this
      have htp_mem : tp ∈ ps := List.mem_of_find?_eq_some hf2
      have htp_pos : tp.position = np := by
        have := List.find?_some hf2; simpa [hnp] using this
      have hnp_ne : np ≠ sp.position := by
        rw [hnp]; split <;> omega
      have htp_ne_sp : tp ≠ sp := fun he => hnp_ne (by rw [← htp_pos, he])
      have h1 : ps.Perm (sp :: ps.erase sp) := List.perm_cons_erase hsp_mem
      have htp_mem_e : tp ∈ ps.erase sp :=
        (List.mem_erase_of_ne htp_ne_sp).mpr htp_mem
      have h2 : (ps.erase sp).Perm (tp :: (ps.erase sp).erase tp) :=
        List.perm_cons_erase htp_mem_e
      have h3 : ps.Perm (sp :: tp :: (ps.erase sp).erase tp) :=
        h1.trans (h2.cons sp)
      set rest : List StreamProduct := (ps.erase sp).erase tp with hrest
      have hrest_facts : ∀ x ∈ rest, x ≠ sp ∧ x ≠ tp ∧ x ∈ ps := by
        intro x hx
        have hxe : x ∈ ps.erase sp := List.erase_subset _ _ hx
        have hxp : x ∈ ps := List.erase_subset _ _ hxe
        refine ⟨fun he => ?_, fun he => ?_, hxp⟩
        · exact hnodup.not_mem_erase (he ▸ hxe)
        · exact (hnodup.erase sp).not_mem_erase (he ▸ hx)
      have gstep : ∀ x ∈ rest,
          ((fun p => if p.id == i then { p with position := np }
            else if p.id == tp.id then { p with position := sp.position }
            else p) x).position = x.position := by
        intro x hx
        obtain ⟨hxsp, hxtp, hxp⟩ := hrest_facts x hx
        have hxi : (x.id == i) = false := by
          refine beq_eq_false_iff_ne.mpr (fun he => hxsp ?_)
          exact eq_of_mem_of_map_nodup (·.id) hids hxp hsp_mem (he.trans hsp_id.symm)
        have hxt : (x.id == tp.id) = false := by
          refine beq_eq_false_iff_ne.mpr (fun he => hxtp ?_)
          exact eq_of_mem_of_map_nodup (·.id) hids hxp htp_mem he
        simp [hxi, hxt]
      have hsp_beq : (sp.id == i) = true := beq_iff_eq.mpr hsp_id
      have htp_beq_i : (tp.id == i) = false := by
        refine beq_eq_false_iff_ne.mpr (fun he => htp_ne_sp ?_)
        exact eq_of_mem_of_map_nodup (·.id) hids htp_mem hsp_mem
          (he.trans hsp_id.symm)
      unfold contiguousPositions
      rw [List.length_map, List.map_map]
      have e1 := h3.map (fun p =>
        ((fun p => if p.id == i then { p with position := np }
          else if p.id == tp.id then { p with position := sp.position }
          else p) p).position)
      have e2 : (sp :: tp :: rest).map (fun p =>
          ((fun p => if p.id == i then { p with position := np }
            else if p.id == tp.id then { p with position := sp.position }
            else p) p).position)
          = np :: sp.position :: rest.map (·.position) := by
        simp only [List.map_cons, hsp_beq, if_true, htp_beq_i,
          Bool.false_eq_true, if_false, beq_self_eq_true]
        exact congrArg (fun l => np :: sp.position :: l)
          (List.map_congr_left gstep)
      have e3 : (sp :: tp :: rest).map (·.position)
          = sp.position :: np :: rest.map (·.position) := by
        simp [htp_pos]
      have e4 : (ps.map fun p =>
          ((fun p => if p.id == i then { p with position := np }
            else if p.id == tp.id then { p with position := sp.position }
            else p) p).position).Perm (ps.map (·.position)) := by
        refine (e1.trans ?_).trans ((h3.map (·.position)).symm)
        rw [e2, e3]
        exact List.Perm.swap sp.position np (rest.map (·.position))
      exact e4.trans h

/-- C7: after any add-product, remove-product or reorder-product operation
on a lineup whose positions are the dense range `0..N-1` (row ids unique),
the resulting positions are again exactly the dense range `0..M-1`; and
concretely, removing the middle product of the 3-product lineup leaves the
other two at positions 0 and 1 in their prior relative order. -/
theorem lineup_positions_contiguous :
    (∀ (op : LineupOp) (ps : List StreamProduct),
      (ps.map (·.id)).Nodup → contiguousPositions ps →
      contiguousPositions (applyLineupOp op ps)) ∧
    removeProduct exLineup3 "p1"
      = [{ id := "p0", productId := "A", position := 0 },
         { id := "p2", productId := "C", position := 1 }] := by
  constructor
  · intro op ps hids h
    cases op with
    | remove i => exact contiguous_removeProduct ps i
    | reorder i u => exact contiguous_reorderProduct hids h i u
    | add pids b => exact contiguous_addProducts h pids b
  · decide

/-- Witness for C7: the hypotheses and the conclusion at the concrete
3-product lineup, removing the middle product. -/
theorem lineup_positions_contiguous_witness :
    (exLineup3.map (·.id)).Nodup ∧ contiguousPositions exLineup3 ∧
    contiguousPositions (applyLineupOp (.remove "p1") exLineup3) :=
  ⟨by decide, by unfold contiguousPositions; decide,
   lineup_positions_contiguous.1 (.remove "p1") exLineup3 (by decide)
     (by unfold contiguousPositions; decide)⟩

end ShopStream
